import Mathlib

/-!
Verification of the CoastSat-spit shoreline analysis core: the duplicate/quality
filter, the transect-shoreline intersection engine, the temporal alignment of the
tide series, and the tidal-correction stage of the example notebook
(src/example_Tien_Chau.ipynb).  Coordinates, distances and elevations are modelled
as rationals; the floating-point NaN missing marker of the notebook is modelled as
the explicit marker in an option type.
-/

namespace CoastSpit

/-- A 2D point in the projected planar reference system. -/
abbrev Pt := ℚ × ℚ

/-- Error taxonomy of the design (spec section 7): all fail-fast static-input errors. -/
inductive CoastErr where
  | invalidTransect
  | invalidObservation
  | noTideData
  | zeroSlope
deriving DecidableEq, Repr

/-- One classified shoreline extraction result for a single acquisition: one slot of
the notebook output dict (dates, satname, shorelines, cloud_cover, geoaccuracy). -/
structure Obs where
  date : ℤ
  satname : String
  points : List Pt
  cloud_cover : ℚ
  geoaccuracy : ℚ
deriving DecidableEq, Repr

/-- A shore-normal reference line with its landward origin and seaward endpoint. -/
structure Transect where
  id : String
  origin : Pt
  endpoint : Pt
deriving DecidableEq, Repr

/-- Modelled from the spec: Transect construction is not in src (transects are drawn
interactively or loaded from geojson by external collaborators); the spec requires
construction to fail with InvalidTransectError when origin = endpoint. -/
def mkTransect (id : String) (o e : Pt) : Except CoastErr Transect :=
  if o = e then .error .invalidTransect else .ok ⟨id, o, e⟩

/-- Key used for duplicate detection: capture date together with the satellite tag. -/
def obsKey (o : Obs) : ℤ × String := (o.date, o.satname)

/-- Modelled from the spec: SDS_tools.remove_duplicates is not in src (CoastSat
library code); the spec (section 4.1) requires that of any two observations sharing
the same (date, satellite_id) key exactly one is retained, keeping the first
encountered. -/
def removeDuplicatesList : List Obs → List Obs
  | [] => []
  | x :: xs =>
      x :: removeDuplicatesList (xs.filter (fun y => decide (obsKey y ≠ obsKey x)))
termination_by l => l.length
decreasing_by
  simp only [List.length_cons]
  exact Nat.lt_succ_of_le (List.length_filter_le _ _)

/-- Duplicate removal together with its reported removal count (spec section 4.1). -/
def remove_duplicates (l : List Obs) : List Obs × ℕ :=
  let r := removeDuplicatesList l
  (r, l.length - r.length)

/-- Modelled from the spec: SDS_tools.remove_inaccurate_georef is not in src (CoastSat
library code); the spec (section 4.1) requires dropping every observation whose
georef_accuracy exceeds the caller-supplied threshold and reporting the count
removed. -/
def remove_inaccurate_georef (l : List Obs) (acc : ℚ) : List Obs × ℕ :=
  let r := l.filter (fun o => decide (o.geoaccuracy ≤ acc))
  (r, l.length - r.length)

/-- Unnormalized signed projection of p onto the transect direction: the dot product
of p - origin with endpoint - origin. -/
def dotDir (t : Transect) (p : Pt) : ℚ :=
  (p.1 - t.origin.1) * (t.endpoint.1 - t.origin.1) +
    (p.2 - t.origin.2) * (t.endpoint.2 - t.origin.2)

/-- Unnormalized along-shore deviation of p from the transect line: the 2D cross
product of endpoint - origin with p - origin. -/
def crossDir (t : Transect) (p : Pt) : ℚ :=
  (t.endpoint.1 - t.origin.1) * (p.2 - t.origin.2) -
    (t.endpoint.2 - t.origin.2) * (p.1 - t.origin.1)

/-- Squared length of the transect segment. -/
def lenSq (t : Transect) : ℚ :=
  (t.endpoint.1 - t.origin.1) ^ 2 + (t.endpoint.2 - t.origin.2) ^ 2

/-- Median of a list of rationals, matching np.median: the middle element of the
sorted list when the length is odd, the average of the two middle elements when it
is even, and no value on the empty list. -/
def median (l : List ℚ) : Option ℚ :=
  let s := l.insertionSort (· ≤ ·)
  if s.length = 0 then none
  else if s.length % 2 = 1 then some (s.getD (s.length / 2) 0)
  else some ((s.getD (s.length / 2 - 1) 0 + s.getD (s.length / 2) 0) / 2)

/-- Signed projection of a point onto the transect direction, the cross-shore
distance from the origin; L is the transect length. -/
def crossShoreProj (t : Transect) (L : ℚ) (p : Pt) : ℚ := dotDir t p / L

/-- Along-shore distance of a point from the transect line; L is the transect
length. -/
def alongShoreDist (t : Transect) (L : ℚ) (p : Pt) : ℚ := |crossDir t p| / L

/-- Modelled from the spec: SDS_transects.compute_intersection is not in src
(CoastSat library code).  Spec section 4.2: rotate the shoreline points of one
observation into the transect frame (first coordinate along the unit direction
origin to endpoint, second along the perpendicular along-shore axis), keep the
points whose along-shore coordinate lies within the half-width d, and return the
median of the kept cross-shore coordinates, or the missing marker when no point is
kept.  L is the transect length, supplied by the caller with L^2 = lenSq t so that
the computation stays inside the rationals. -/
def compute_intersection_tr (t : Transect) (L d : ℚ) (pts : List Pt) : Option ℚ :=
  let rot := pts.map (fun p => (dotDir t p / L, crossDir t p / L))
  let sel := rot.filter (fun q => decide (|q.2| ≤ d))
  if sel.isEmpty then none else median (sel.map Prod.fst)

/-- Modelled from the spec: the intersection engine's error condition of section
4.2 — it fails with InvalidTransectError when the transect is degenerate. -/
def compute_intersection_checked (t : Transect) (L d : ℚ) (pts : List Pt) :
    Except CoastErr (Option ℚ) :=
  if t.origin = t.endpoint then .error .invalidTransect
  else .ok (compute_intersection_tr t L d pts)

/-- One tide sample: a (timestamp, elevation) pair. -/
abbrev TideSample := ℚ × ℚ

/-- Modelled from the spec: the nearest-in-time sample selection inside
SDS_tools.get_closest_datapoint, which is not in src (CoastSat library code).
Best sample among x :: xs for date d: a later sample replaces the current best
only when its absolute time difference is strictly smaller, so exact ties keep the
earlier sample. -/
def closestSample (d : ℚ) (x : TideSample) : List TideSample → TideSample
  | [] => x
  | y :: ys =>
      let b := closestSample d y ys
      if |b.1 - d| < |x.1 - d| then b else x

/-- Modelled from the spec: SDS_tools.get_closest_datapoint (section 4.3) — for
each observation date return the elevation of the tide sample nearest in time; an
empty tide series fails with NoTideDataError. -/
def get_closest_datapoint : List ℚ → List TideSample → Except CoastErr (List ℚ)
  | _, [] => .error .noTideData
  | dates, x :: xs => .ok (dates.map (fun d => (closestSample d x xs).2))

/-- A raw cross-shore value: either the missing marker (NaN in the notebook) or a
numeric distance. -/
abbrev CrossVal := Option ℚ

/-- CrossDistanceSeries: transect id mapped to the ordered per-date values, in the
notebook a dict of numpy arrays aligned with the observation dates. -/
abbrev CrossSeries := List (String × List CrossVal)

/-- Embedding of the tidal-correction loop of notebook cell 47:
for key in cross_distance.keys():
    correction = (tides_sat - reference_elevation)/beach_slope[key]
    cross_distance_tidally_corrected[key] = cross_distance[key] + correction
The elementwise numpy addition pairs each date's raw value with that date's matched
tide; NaN absorbs addition, which the option map reproduces on the missing
marker. -/
def tidal_correct (cross : CrossSeries) (tides : List ℚ) (ref : ℚ)
    (slope : String → ℚ) : CrossSeries :=
  cross.map (fun kv =>
    (kv.1, (kv.2.zip tides).map (fun rz => rz.1.map (fun r => r + (rz.2 - ref) / slope kv.1))))

theorem lookup_tidal_correct (cross : CrossSeries) (tides : List ℚ) (ref : ℚ)
    (slope : String → ℚ) (k : String) (vs : List CrossVal)
    (h : cross.lookup k = some vs) :
    (tidal_correct cross tides ref slope).lookup k =
      some ((vs.zip tides).map (fun rz => rz.1.map (fun r => r + (rz.2 - ref) / slope k))) := by
  induction cross with
  | nil => simp [List.lookup] at h
  | cons kv rest ih =>
      rw [List.lookup] at h
      rw [tidal_correct, List.map_cons, List.lookup]
      cases hk : (k == kv.1) with
      | true =>
          rw [hk] at h
          obtain rfl : k = kv.1 := by simpa using hk
          simp only at h
          obtain rfl : kv.2 = vs := by simpa using h
          rfl
      | false =>
          rw [hk] at h
          simpa [tidal_correct] using ih h

theorem zip_getElem_eq {α β : Type} (l1 : List α) (l2 : List β) (i : ℕ) (a : α)
    (b : β) (h1 : l1[i]? = some a) (h2 : l2[i]? = some b) :
    (l1.zip l2)[i]? = some (a, b) := by
  induction l1 generalizing l2 i with
  | nil => simp at h1
  | cons x xs ih =>
      cases l2 with
      | nil => simp at h2
      | cons y ys =>
          cases i with
          | zero =>
              simp only [List.getElem?_cons_zero, Option.some.injEq] at h1 h2
              simp [List.zip_cons_cons, h1, h2]
          | succ n =>
              simp only [List.getElem?_cons_succ] at h1 h2
              simpa [List.zip_cons_cons] using ih ys n h1 h2

/-- C1: the tidal-correction stage of cell 47 computes, for every transect id and
every date index, corrected = raw + (matched_tide - reference_elevation) /
slope[transect_id]. -/
theorem tidal_correct_formula (cross : CrossSeries) (tides : List ℚ) (ref : ℚ)
    (slope : String → ℚ) (k : String) (vs : List CrossVal) (i : ℕ) (r tval : ℚ)
    (hk : cross.lookup k = some vs) (hr : vs[i]? = some (some r))
    (ht : tides[i]? = some tval) (hs : slope k ≠ 0) :
    ∃ ws, (tidal_correct cross tides ref slope).lookup k = some ws ∧
      ws[i]? = some (some (r + (tval - ref) / slope k)) := by
  refine ⟨_, lookup_tidal_correct cross tides ref slope k vs hk, ?_⟩
  rw [List.getElem?_map, zip_getElem_eq vs tides i (some r) tval hr ht]
  rfl

/-- Witness for C1 at a concrete input: raw 5, tide 2, reference 1, slope 20. -/
theorem tidal_correct_formula_witness :
    ∃ ws, (tidal_correct [("3", [some 5])] [2] 1 (fun _ => 20)).lookup "3" = some ws ∧
      ws[0]? = some (some (5 + (2 - 1) / (20 : ℚ))) :=
  tidal_correct_formula [("3", [some 5])] [2] 1 (fun _ => 20) "3" [some 5] 0 5 2
    (by decide) (by decide) (by decide) (by decide)

/-- C2: a missing raw value stays the missing marker through tidal correction (no
spurious numeric result); an observation with no points yields the missing marker
on every valid transect; and the marker is distinct from every numeric value, zero
included. -/
theorem missing_value_propagation :
    (∀ (t : Transect) (L d : ℚ), t.origin ≠ t.endpoint →
        compute_intersection_checked t L d [] = .ok none)
    ∧ (∀ q : ℚ, (none : CrossVal) ≠ some q)
    ∧ (∀ (cross : CrossSeries) (tides : List ℚ) (ref : ℚ) (slope : String → ℚ)
        (k : String) (vs : List CrossVal) (i : ℕ),
        cross.lookup k = some vs → vs[i]? = some none → i < tides.length →
        ∃ ws, (tidal_correct cross tides ref slope).lookup k = some ws ∧
          ws[i]? = some none) := by
  refine ⟨?_, ?_, ?_⟩
  · intro t L d ht
    simp [compute_intersection_checked, ht, compute_intersection_tr]
  · intro q h
    cases h
  · intro cross tides ref slope k vs i hk hv hi
    obtain ⟨tval, htv⟩ : ∃ tval, tides[i]? = some tval := by
      exact ⟨tides[i], List.getElem?_eq_getElem hi⟩
    refine ⟨_, lookup_tidal_correct cross tides ref slope k vs hk, ?_⟩
    rw [List.getElem?_map, zip_getElem_eq vs tides i none tval hv htv]
    rfl

/-- Witness for C2 at a concrete input: a missing entry stays missing. -/
theorem missing_value_propagation_witness :
    ∃ ws, (tidal_correct [("1", [none])] [2] 1 (fun _ => 1)).lookup "1" = some ws ∧
      ws[0]? = some none :=
  missing_value_propagation.2.2 [("1", [none])] [2] 1 (fun _ => 1) "1" [none] 0
    (by decide) (by decide) (by decide)

/-- C5 counterexample: with beach slope 0 the tidal-correction loop of cell 47 does
not fail; it still produces a corrected entry for that transect (in the notebook
the float division by zero yields non-finite values, with warnings suppressed), and
no ZeroSlopeError exists anywhere in the code. -/
theorem zero_slope_no_failure :
    ((tidal_correct [("1", [some 10])] [2] 1 (fun _ => 0)).lookup "1").isSome = true := by
  decide

/-- C5 amended: the tidal-correction stage performs no slope validation and cannot
fail; for every transect id present in the series, also one whose slope is 0, it
produces an output entry rather than raising ZeroSlopeError. -/
theorem tidal_correct_ignores_zero_slope (cross : CrossSeries) (tides : List ℚ)
    (ref : ℚ) (slope : String → ℚ) (k : String)
    (hk : k ∈ cross.map Prod.fst) (h0 : slope k = 0) :
    ((tidal_correct cross tides ref slope).lookup k).isSome = true := by
  induction cross with
  | nil => simp at hk
  | cons kv rest ih =>
      rw [tidal_correct, List.map_cons, List.lookup]
      cases hkv : (k == kv.1) with
      | true => rfl
      | false =>
          have hk' : k ∈ rest.map Prod.fst := by
            rcases (by simpa using hk : k = kv.1 ∨ k ∈ rest.map Prod.fst) with h | h
            · exact absurd h (by simpa using hkv)
            · exact h
          simpa [tidal_correct] using ih hk'

/-- Witness for the amended C5 at a concrete input with slope 0. -/
theorem tidal_correct_ignores_zero_slope_witness :
    ((tidal_correct [("9", [some 7])] [3] 1 (fun _ => 0)).lookup "9").isSome = true :=
  tidal_correct_ignores_zero_slope [("9", [some 7])] [3] 1 (fun _ => 0) "9"
    (by decide) rfl

/-- C10: tidal correction preserves the transect-id key set and every per-transect
sequence length; the raw series itself is only read (the output is built by a pure
map over it). -/
theorem tidal_correct_shape (cross : CrossSeries) (tides : List ℚ) (ref : ℚ)
    (slope : String → ℚ)
    (hlen : ∀ kv ∈ cross, (kv.2).length = tides.length) :
    (tidal_correct cross tides ref slope).map Prod.fst = cross.map Prod.fst
    ∧ ∀ j : ℕ, ((tidal_correct cross tides ref slope)[j]?).map (fun kv => kv.2.length)
        = (cross[j]?).map (fun kv => kv.2.length) := by
  constructor
  · simp [tidal_correct]
  · intro j
    rw [tidal_correct, List.getElem?_map]
    cases hj : cross[j]? with
    | none => rfl
    | some kv =>
        have hmem : kv ∈ cross := by
          rw [List.getElem?_eq_some] at hj
          obtain ⟨hlt, rfl⟩ := hj
          exact List.getElem_mem hlt
        simp [List.length_zip, hlen kv hmem]

/-- Witness for C10 at a concrete input. -/
theorem tidal_correct_shape_witness :
    (tidal_correct [("1", [some 3, none])] [2, 5] 1 (fun _ => 1)).map Prod.fst
        = ([("1", [some 3, none])] : CrossSeries).map Prod.fst
    ∧ ∀ j : ℕ, ((tidal_correct [("1", [some 3, none])] [2, 5] 1 (fun _ => 1))[j]?).map
          (fun kv => kv.2.length)
        = (([("1", [some 3, none])] : CrossSeries)[j]?).map (fun kv => kv.2.length) :=
  tidal_correct_shape [("1", [some 3, none])] [2, 5] 1 (fun _ => 1) (by decide)

theorem mem_removeDuplicatesList (a : Obs) :
    ∀ (l : List Obs), a ∈ removeDuplicatesList l → a ∈ l := by
  intro l
  induction l using removeDuplicatesList.induct with
  | case1 =>
      intro h
      simpa [removeDuplicatesList] using h
  | case2 x xs ih =>
      intro h
      rw [removeDuplicatesList, List.mem_cons] at h
      rcases h with rfl | h
      · exact List.mem_cons_self _ _
      · exact List.mem_cons_of_mem _ (List.mem_of_mem_filter (ih h))

theorem pairwise_removeDuplicatesList :
    ∀ (l : List Obs), (removeDuplicatesList l).Pairwise (fun a b => obsKey a ≠ obsKey b) := by
  intro l
  induction l using removeDuplicatesList.induct with
  | case1 => simp [removeDuplicatesList]
  | case2 x xs ih =>
      rw [removeDuplicatesList, List.pairwise_cons]
      refine ⟨?_, ih⟩
      intro b hb
      have hbf := mem_removeDuplicatesList b _ hb
      have hpb : obsKey b ≠ obsKey x := by simpa using (List.mem_filter.mp hbf).2
      exact fun hxb => hpb hxb.symm

theorem removeDuplicatesList_eq_self :
    ∀ (l : List Obs), l.Pairwise (fun a b => obsKey a ≠ obsKey b) →
      removeDuplicatesList l = l := by
  intro l
  induction l using removeDuplicatesList.induct with
  | case1 => intro _; simp [removeDuplicatesList]
  | case2 x xs ih =>
      intro h
      rw [List.pairwise_cons] at h
      have hf : xs.filter (fun y => decide (obsKey y ≠ obsKey x)) = xs := by
        apply List.filter_eq_self.mpr
        intro y hy
        simpa using (h.1 y hy).symm
      rw [removeDuplicatesList, hf]
      rw [hf] at ih
      rw [ih h.2]

/-- C7: running the Duplicate/Quality Filter (duplicate removal followed by
inaccurate-georeferencing removal) a second time on its own output removes
nothing: the collection is unchanged and both reported removal counts are zero. -/
theorem quality_filter_idempotent (l : List Obs) (acc : ℚ) :
    remove_duplicates (remove_inaccurate_georef (remove_duplicates l).1 acc).1
      = ((remove_inaccurate_georef (remove_duplicates l).1 acc).1, 0)
    ∧ remove_inaccurate_georef
        (remove_duplicates (remove_inaccurate_georef (remove_duplicates l).1 acc).1).1 acc
      = ((remove_inaccurate_georef (remove_duplicates l).1 acc).1, 0) := by
  have hpair : ((removeDuplicatesList l).filter
      (fun o => decide (o.geoaccuracy ≤ acc))).Pairwise (fun a b => obsKey a ≠ obsKey b) :=
    (pairwise_removeDuplicatesList l).sublist (List.filter_sublist _)
  have hrdl : removeDuplicatesList
      ((removeDuplicatesList l).filter (fun o => decide (o.geoaccuracy ≤ acc)))
      = (removeDuplicatesList l).filter (fun o => decide (o.geoaccuracy ≤ acc)) :=
    removeDuplicatesList_eq_self _ hpair
  have hff : ((removeDuplicatesList l).filter
        (fun o => decide (o.geoaccuracy ≤ acc))).filter
        (fun o => decide (o.geoaccuracy ≤ acc))
      = (removeDuplicatesList l).filter (fun o => decide (o.geoaccuracy ≤ acc)) := by
    rw [List.filter_filter]
    apply List.filter_congr
    intro x _
    exact Bool.and_self _
  constructor
  · simp only [remove_duplicates, remove_inaccurate_georef]
    rw [hrdl, Nat.sub_self]
  · simp only [remove_duplicates, remove_inaccurate_georef]
    rw [hrdl, hff, Nat.sub_self]

/-- C8: the georeferencing quality filter keeps exactly the observations whose
georef_accuracy does not exceed the threshold, in their original order, and reports
the count of observations removed; the input is only read, never altered. -/
theorem remove_inaccurate_georef_spec (l : List Obs) (acc : ℚ) :
    List.Sublist (remove_inaccurate_georef l acc).1 l
    ∧ (∀ o : Obs, o ∈ (remove_inaccurate_georef l acc).1 ↔ o ∈ l ∧ o.geoaccuracy ≤ acc)
    ∧ (∀ o : Obs, ((remove_inaccurate_georef l acc).1).count o
        = if o.geoaccuracy ≤ acc then l.count o else 0)
    ∧ (remove_inaccurate_georef l acc).2
        = l.countP (fun o => decide (¬ o.geoaccuracy ≤ acc)) := by
  refine ⟨List.filter_sublist _, ?_, ?_, ?_⟩
  · intro o
    show o ∈ l.filter (fun o => decide (o.geoaccuracy ≤ acc)) ↔ _
    rw [List.mem_filter]
    simp
  · intro o
    by_cases h : o.geoaccuracy ≤ acc
    · rw [if_pos h]
      exact List.count_filter (by simpa using h)
    · rw [if_neg h]
      exact List.count_eq_zero.mpr
        (fun hm => h (by simpa using (List.mem_filter.mp hm).2))
  · show l.length - ((l.filter (fun o => decide (o.geoaccuracy ≤ acc))).length) = _
    rw [← List.countP_eq_length_filter]
    have hsplit := List.length_eq_countP_add_countP
      (fun o : Obs => decide (o.geoaccuracy ≤ acc)) l
    have hcongr : l.countP
          (fun o : Obs => decide (¬ decide (o.geoaccuracy ≤ acc) = true))
        = l.countP (fun o : Obs => decide (¬ o.geoaccuracy ≤ acc)) := by
      apply List.countP_congr
      intro x _
      simp
    omega

theorem closestSample_split (d : ℚ) :
    ∀ (x : TideSample) (xs : List TideSample),
      ∃ l1 l2, x :: xs = l1 ++ (closestSample d x xs) :: l2
        ∧ (∀ y ∈ l1, |(closestSample d x xs).1 - d| < |y.1 - d|)
        ∧ (∀ y ∈ l2, |(closestSample d x xs).1 - d| ≤ |y.1 - d|) := by
  intro x xs
  induction xs generalizing x with
  | nil => exact ⟨[], [], rfl, by simp, by simp⟩
  | cons y ys ih =>
      obtain ⟨m1, m2, hdec, hm1, hm2⟩ := ih y
      have hr : closestSample d x (y :: ys)
          = if |(closestSample d y ys).1 - d| < |x.1 - d| then closestSample d y ys
            else x := rfl
      by_cases hlt : |(closestSample d y ys).1 - d| < |x.1 - d|
      · rw [hr, if_pos hlt]
        refine ⟨x :: m1, m2, ?_, ?_, hm2⟩
        · rw [List.cons_append]
          exact congrArg (x :: ·) hdec
        · intro z hz
          rcases List.mem_cons.mp hz with rfl | hz
          · exact hlt
          · exact hm1 z hz
      · rw [hr, if_neg hlt]
        push_neg at hlt
        refine ⟨[], y :: ys, rfl, by simp, ?_⟩
        intro z hz
        rw [hdec] at hz
        rcases List.mem_append.mp hz with hz | hz
        · exact le_of_lt (lt_of_le_of_lt hlt (hm1 z hz))
        · rcases List.mem_cons.mp hz with rfl | hz
          · exact hlt
          · exact le_trans hlt (hm2 z hz)

theorem closestSample_mem (d : ℚ) (x : TideSample) (xs : List TideSample) :
    closestSample d x xs ∈ x :: xs := by
  obtain ⟨l1, l2, hdec, -, -⟩ := closestSample_split d x xs
  rw [hdec]
  exact List.mem_append.mpr (Or.inr (List.mem_cons_self _ _))

theorem closestSample_tie_earlier (d : ℚ) (x : TideSample) (xs : List TideSample)
    (hmono : (x :: xs).Pairwise (fun a b => a.1 < b.1)) :
    ∀ y ∈ x :: xs, |y.1 - d| = |(closestSample d x xs).1 - d| →
      (closestSample d x xs).1 ≤ y.1 := by
  obtain ⟨l1, l2, hdec, hm1, hm2⟩ := closestSample_split d x xs
  intro y hy heq
  rw [hdec] at hy hmono
  obtain ⟨-, h2, -⟩ := List.pairwise_append.mp hmono
  rcases List.mem_append.mp hy with hy | hy
  · exact absurd heq (by exact ne_of_gt (by simpa using hm1 y hy))
  · rcases List.mem_cons.mp hy with rfl | hy
    · exact le_refl _
    · exact le_of_lt ((List.pairwise_cons.mp h2).1 y hy)

/-- C4: for every observation date the Temporal Alignment stage returns the
elevation of the tide sample whose timestamp has minimum absolute time difference
(every sample earlier in the series than the selected one is strictly farther,
every later one at least as far, so no interpolation happens), and an exactly
equidistant tie selects the earlier sample. -/
theorem get_closest_datapoint_nearest (dates : List ℚ) (x : TideSample)
    (xs : List TideSample)
    (hmono : (x :: xs).Pairwise (fun a b => a.1 < b.1)) :
    ∃ out, get_closest_datapoint dates (x :: xs) = .ok out
      ∧ out.length = dates.length
      ∧ ∀ (i : ℕ) (d : ℚ), dates[i]? = some d →
          ∃ r l1 l2, x :: xs = l1 ++ r :: l2
            ∧ out[i]? = some r.2
            ∧ (∀ y ∈ l1, |r.1 - d| < |y.1 - d|)
            ∧ (∀ y ∈ l2, |r.1 - d| ≤ |y.1 - d|)
            ∧ (∀ y ∈ x :: xs, |y.1 - d| = |r.1 - d| → r.1 ≤ y.1) := by
  refine ⟨_, rfl, by simp, ?_⟩
  intro i d hi
  obtain ⟨l1, l2, hdec, hm1, hm2⟩ := closestSample_split d x xs
  refine ⟨closestSample d x xs, l1, l2, hdec, ?_, hm1, hm2,
    closestSample_tie_earlier d x xs hmono⟩
  rw [List.getElem?_map, hi]
  rfl

/-- Witness for C4 on the spec's own example: tide samples at times 0 and 10 with
elevations 1 and 2. -/
theorem get_closest_datapoint_nearest_witness :
    ∃ out, get_closest_datapoint [4, 6] (((0:ℚ), (1:ℚ)) :: [((10:ℚ), (2:ℚ))]) = .ok out
      ∧ out.length = ([(4:ℚ), 6]).length
      ∧ ∀ (i : ℕ) (d : ℚ), ([(4:ℚ), 6])[i]? = some d →
          ∃ r l1 l2, ((0:ℚ), (1:ℚ)) :: [((10:ℚ), (2:ℚ))] = l1 ++ r :: l2
            ∧ out[i]? = some r.2
            ∧ (∀ y ∈ l1, |r.1 - d| < |y.1 - d|)
            ∧ (∀ y ∈ l2, |r.1 - d| ≤ |y.1 - d|)
            ∧ (∀ y ∈ ((0:ℚ), (1:ℚ)) :: [((10:ℚ), (2:ℚ))],
                |y.1 - d| = |r.1 - d| → r.1 ≤ y.1) :=
  get_closest_datapoint_nearest [4, 6] ((0:ℚ), (1:ℚ)) [((10:ℚ), (2:ℚ))] (by decide)

/-- C6: an empty tide series fails with NoTideDataError; a non-empty series never
fails, whatever the observation dates; and a date outside the series' time span is
matched to the nearest endpoint sample: the first sample when the date precedes the
span, the last sample when it follows it. -/
theorem get_closest_datapoint_degenerate (dates : List ℚ) :
    get_closest_datapoint dates [] = .error .noTideData
    ∧ (∀ (x : TideSample) (xs : List TideSample),
        ∃ out, get_closest_datapoint dates (x :: xs) = .ok out)
    ∧ (∀ (x : TideSample) (xs : List TideSample) (d : ℚ),
        (x :: xs).Pairwise (fun a b => a.1 < b.1) →
        (d ≤ x.1 → closestSample d x xs = x)
        ∧ ((∀ y ∈ x :: xs, y.1 ≤ d) →
            (x :: xs).getLast? = some (closestSample d x xs))) := by
  refine ⟨rfl, fun x xs => ⟨_, rfl⟩, ?_⟩
  intro x xs d hmono
  obtain ⟨l1, l2, hdec, hm1, hm2⟩ := closestSample_split d x xs
  have hmem : closestSample d x xs ∈ x :: xs := closestSample_mem d x xs
  have hhead : x.1 ≤ (closestSample d x xs).1 := by
    rcases List.mem_cons.mp hmem with heq | hmem'
    · rw [heq]
    · exact le_of_lt ((List.pairwise_cons.mp hmono).1 _ hmem')
  constructor
  · intro hd
    cases l1 with
    | nil =>
        have := hdec
        simp only [List.nil_append, List.cons.injEq] at this
        exact this.1.symm
    | cons z l1t =>
        exfalso
        have hxz : x = z := by
          have := hdec
          simp only [List.cons_append, List.cons.injEq] at this
          exact this.1
        have hxin : x ∈ l1t.cons z := by
          rw [← hxz] at *
          exact List.mem_cons_self _ _
        have hcontr := hm1 x (by rw [hxz]; exact List.mem_cons_self _ _)
        have habs1 : |(closestSample d x xs).1 - d| = (closestSample d x xs).1 - d :=
          abs_of_nonneg (by linarith)
        have habs2 : |x.1 - d| = x.1 - d := abs_of_nonneg (by linarith)
        rw [habs1, habs2] at hcontr
        linarith
  · intro hall
    have hl2 : l2 = [] := by
      cases l2 with
      | nil => rfl
      | cons z l2t =>
          exfalso
          have hzmem : z ∈ x :: xs := by
            rw [hdec]
            exact List.mem_append.mpr (Or.inr (List.mem_cons_of_mem _ (List.mem_cons_self _ _)))
          have hzlt : (closestSample d x xs).1 < z.1 := by
            have hmono' := hmono
            rw [hdec] at hmono'
            obtain ⟨-, h2, -⟩ := List.pairwise_append.mp hmono'
            exact (List.pairwise_cons.mp h2).1 z (List.mem_cons_self _ _)
          have hle := hm2 z (List.mem_cons_self _ _)
          have hzd : z.1 ≤ d := hall z hzmem
          have hrd : (closestSample d x xs).1 ≤ d := by linarith
          rw [abs_of_nonpos (by linarith), abs_of_nonpos (by linarith)] at hle
          linarith
    rw [hdec, hl2]
    exact List.getLast?_concat _

/-- Witness for C6: the empty series fails, and a date before the whole span
matches the first sample. -/
theorem get_closest_datapoint_degenerate_witness :
    get_closest_datapoint [(4:ℚ)] [] = .error .noTideData
    ∧ closestSample (-5) ((0:ℚ), (1:ℚ)) [((10:ℚ), (2:ℚ))] = ((0:ℚ), (1:ℚ)) :=
  ⟨(get_closest_datapoint_degenerate [4]).1,
   ((get_closest_datapoint_degenerate [4]).2.2 ((0:ℚ), (1:ℚ)) [((10:ℚ), (2:ℚ))] (-5)
       (by decide)).1 (by decide)⟩

/-- C3: for every valid transect and observation, the Intersection Engine returns
the median of the signed projections onto the transect direction of exactly those
points whose along-shore distance from the transect lies within the half-width d,
and the missing marker when no point is selected. -/
theorem compute_intersection_median (t : Transect) (L d : ℚ) (pts : List Pt)
    (ht : t.origin ≠ t.endpoint) (hL : 0 < L) (hL2 : L ^ 2 = lenSq t) :
    compute_intersection_checked t L d pts =
      .ok (if pts.filter (fun p => decide (alongShoreDist t L p ≤ d)) = []
        then none
        else median ((pts.filter (fun p => decide (alongShoreDist t L p ≤ d))).map
          (crossShoreProj t L))) := by
  rw [compute_intersection_checked, if_neg ht]
  congr 1
  simp only [compute_intersection_tr]
  rw [List.filter_map]
  have hpred : pts.filter
        ((fun q : ℚ × ℚ => decide (|q.2| ≤ d)) ∘ (fun p => (dotDir t p / L, crossDir t p / L)))
      = pts.filter (fun p => decide (alongShoreDist t L p ≤ d)) := by
    apply List.filter_congr
    intro p _
    apply decide_eq_decide.mpr
    show |crossDir t p / L| ≤ d ↔ alongShoreDist t L p ≤ d
    unfold alongShoreDist
    rw [abs_div, abs_of_pos hL]
  rw [hpred]
  by_cases hsel : pts.filter (fun p => decide (alongShoreDist t L p ≤ d)) = []
  · rw [hsel]
    simp
  · rw [if_neg hsel]
    have hne : (((pts.filter (fun p => decide (alongShoreDist t L p ≤ d))).map
        (fun p => (dotDir t p / L, crossDir t p / L))).isEmpty = true) ↔ False := by
      simp [List.isEmpty_iff, hsel]
    rw [if_neg (by simpa using hne.mp)]
    rw [List.map_map]
    rfl

/-- Witness for C3 at a concrete transect from (0,0) to (0,100) with half-width 25:
the hypotheses hold at a concrete input. -/
theorem compute_intersection_median_witness :
    compute_intersection_checked ⟨"T1", ((0:ℚ), (0:ℚ)), ((0:ℚ), (100:ℚ))⟩ 100 25
        [((10:ℚ), (50:ℚ)), ((200:ℚ), (60:ℚ)), ((-5:ℚ), (45:ℚ))] =
      .ok (if ([((10:ℚ), (50:ℚ)), ((200:ℚ), (60:ℚ)), ((-5:ℚ), (45:ℚ))]).filter
            (fun p => decide (alongShoreDist
              ⟨"T1", ((0:ℚ), (0:ℚ)), ((0:ℚ), (100:ℚ))⟩ 100 p ≤ 25)) = []
        then none
        else median (((([((10:ℚ), (50:ℚ)), ((200:ℚ), (60:ℚ)), ((-5:ℚ), (45:ℚ))]).filter
            (fun p => decide (alongShoreDist
              ⟨"T1", ((0:ℚ), (0:ℚ)), ((0:ℚ), (100:ℚ))⟩ 100 p ≤ 25)))).map
          (crossShoreProj ⟨"T1", ((0:ℚ), (0:ℚ)), ((0:ℚ), (100:ℚ))⟩ 100))) :=
  compute_intersection_median ⟨"T1", ((0:ℚ), (0:ℚ)), ((0:ℚ), (100:ℚ))⟩ 100 25
    [((10:ℚ), (50:ℚ)), ((200:ℚ), (60:ℚ)), ((-5:ℚ), (45:ℚ))]
    (by decide) (by decide) (by norm_num [lenSq])

/-- C9: a degenerate transect (origin = endpoint) makes the Intersection Engine
fail with InvalidTransectError; constructing such a Transect fails the same way;
and every transect admitted through construction satisfies origin ≠ endpoint. -/
theorem invalid_transect_rejected :
    (∀ (s : String) (p : Pt), mkTransect s p p = .error .invalidTransect)
    ∧ (∀ (t : Transect) (L d : ℚ) (pts : List Pt), t.origin = t.endpoint →
        compute_intersection_checked t L d pts = .error .invalidTransect)
    ∧ (∀ (s : String) (o e : Pt) (t : Transect), mkTransect s o e = .ok t →
        t.origin ≠ t.endpoint) := by
  refine ⟨?_, ?_, ?_⟩
  · intro s p
    simp [mkTransect]
  · intro t L d pts h
    simp [compute_intersection_checked, h]
  · intro s o e t h heq
    by_cases hoe : o = e
    · simp [mkTransect, hoe] at h
    · rw [mkTransect, if_neg hoe] at h
      have h' : (⟨s, o, e⟩ : Transect) = t := by simpa using h
      rw [← h'] at heq
      exact hoe heq

/-- Witness for C9: constructing a transect with equal endpoints fails. -/
theorem invalid_transect_rejected_witness :
    mkTransect "T1" ((0:ℚ), (0:ℚ)) ((0:ℚ), (0:ℚ)) = .error .invalidTransect :=
  invalid_transect_rejected.1 "T1" ((0:ℚ), (0:ℚ))

end CoastSpit
